import Mathlib

set_option maxHeartbeats 1000000

/-!
Shallow embedding of the optimize-image pipeline (optimg/main.py,
class OptimizeImage).  The per-candidate decision logic of
OptimizeImage.run, the atomic replacement writer built on atomic_write
plus os.chown and os.chmod, the marker store built on user xattrs, and
the budget-checked run loop are translated into executable Lean
definitions; the theorems below settle the frozen claims about them.
-/

/-- Stat snapshot of a candidate file, captured once by `img.stat()` in
`OptimizeImage.run` (size, modification time, owner uid, group gid,
permission bits). -/
structure StatSnapshot where
  size : Nat
  mtime : Int
  uid : Nat
  gid : Nat
  mode : Nat
deriving DecidableEq

/-- Content plus metadata of a file on disk. -/
structure FileState where
  content : List Nat
  uid : Nat
  gid : Nat
  mode : Nat
deriving DecidableEq

/-- Filesystem view of one target path: the target file and the optional
sibling temporary file used by `atomic_write`. -/
structure FS where
  target : FileState
  temp : Option FileState
deriving DecidableEq

/-- Raw outcome of reading the `optimized_at` user xattr in
`OptimizeImage.get_optimized_at`: the xattr holds a parseable timestamp,
or `xattr.get` raises an `OSError` (including the unset case), or the
stored bytes do not parse as a float so `float(...)` raises a
`ValueError`. -/
inductive MarkerRead where
  | present (t : Int)
  | osError
  | parseErr
deriving DecidableEq

/-- What a call to `get_optimized_at` does: return an optional timestamp,
or let an exception propagate to the caller. -/
inductive MarkerGet where
  | value (t : Option Int)
  | raised
deriving DecidableEq

/-- `OptimizeImage.get_optimized_at`: `float(xattr.get(...))` guarded by
`except OSError: return None`.  Only an `OSError` is caught; a parse
failure of the stored bytes propagates. -/
def get_optimized_at : MarkerRead → MarkerGet
  | .present t => .value (some t)
  | .osError => .value none
  | .parseErr => .raised

/-- Result of invoking `OptimizeImage.compress` on a candidate: the whole
output payload in memory, or any exception (non-zero exit status of the
external compressor, or a pyguetzli failure). -/
inductive CompressResult where
  | ok (output : List Nat)
  | failed
deriving DecidableEq

/-- Failure point of the replacement-writer block
(`with atomic_write(...)` containing `f.write`, `os.chown`, `os.chmod`):
no failure, or an `OSError` while writing the payload to the temporary
file, or from `os.chown`, or from `os.chmod`. -/
inductive WFail where
  | noFail
  | atWrite
  | atChown
  | atChmod
deriving DecidableEq

/-- One candidate of the run loop: the file as found on disk, the
captured stat snapshot, and the behaviour the environment exhibits for
this candidate (marker read result, compressor result, writer failure
point, whether `xattr.set` succeeds, and the uid/gid/mode the temporary
file is created with by `atomic_write`). -/
structure Candidate where
  content : List Nat
  stat : StatSnapshot
  markerRead : MarkerRead
  compress : CompressResult
  writerFail : WFail
  markerSetOk : Bool
  procUid : Nat
  procGid : Nat
  tmpMode : Nat
deriving DecidableEq

/-- Configuration fields of `OptimizeImage` that the per-candidate logic
reads: the force flag and the optional owner/group/mode overrides. -/
structure Config where
  force : Bool
  owner : Option Nat
  group : Option Nat
  mode : Option Nat
deriving DecidableEq

/-- The file a candidate denotes before any rewrite: its content together
with the metadata of its stat snapshot. -/
def origFile (c : Candidate) : FileState :=
  ⟨c.content, c.stat.uid, c.stat.gid, c.stat.mode⟩

/-- `self.owner if self.owner else stat.st_uid` (and likewise for group
and mode): a Python truthiness test, so an override applies only when it
is set and nonzero. -/
def resolveAttr (ov : Option Nat) (orig : Nat) : Nat :=
  match ov with
  | some v => if v = 0 then orig else v
  | none => orig

/-- `atomic_write` creates the sibling temporary file with the payload,
owned by the running process and with the mode the tempfile machinery
grants. -/
def createTemp (fs : FS) (payload : List Nat) (tu tg tm : Nat) : FS :=
  { fs with temp := some ⟨payload, tu, tg, tm⟩ }

/-- `os.chown(f.name, uid, gid)` applied to the temporary file. -/
def chownTemp (fs : FS) (u g : Nat) : FS :=
  { fs with temp := fs.temp.map fun t => { t with uid := u, gid := g } }

/-- `os.chmod(f.name, mode)` applied to the temporary file. -/
def chmodTemp (fs : FS) (m : Nat) : FS :=
  { fs with temp := fs.temp.map fun t => { t with mode := m } }

/-- Normal exit of the `atomic_write` context: a single atomic rename of
the temporary file over the target. -/
def commitRename (fs : FS) : FS :=
  match fs.temp with
  | some t => ⟨t, none⟩
  | none => fs

/-- Exceptional exit of the `atomic_write` context: the temporary file is
discarded and the target is untouched. -/
def rollback (fs : FS) : FS :=
  { fs with temp := none }

/-- The replacement writer of `OptimizeImage.run` (lines 198-202): write
the payload to a sibling temporary location, apply ownership and mode to
it, then commit by one atomic rename; any `OSError` inside the block
rolls the temporary file back and leaves the target untouched.  Returns
the resulting filesystem and whether the block completed. -/
def atomicReplace (target : FileState) (payload : List Nat)
    (tu tg tm u g m : Nat) (fp : WFail) : FS × Bool :=
  let fs0 : FS := ⟨target, none⟩
  match fp with
  | .atWrite => (rollback (createTemp fs0 payload tu tg tm), false)
  | .atChown => (rollback (createTemp fs0 payload tu tg tm), false)
  | .atChmod => (rollback (chownTemp (createTemp fs0 payload tu tg tm) u g), false)
  | .noFail =>
      (commitRename (chmodTemp (chownTemp (createTemp fs0 payload tu tg tm) u g) m), true)

/-- Terminal classification of one candidate in the run loop. -/
inductive Outcome where
  | skip
  | compressFailed
  | noGain
  | improved
  | writerFailed
  | markerFailed
  | readCrashed
deriving DecidableEq

/-- Observable effect of processing one candidate: its classification,
whether the compressor was invoked, the resulting file on disk, whether
a marker was recorded, the contributions to the before/after size
totals, and whether an exception escaped the candidate into the run
loop. -/
structure StepResult where
  outcome : Outcome
  invoked : Bool
  file : FileState
  markerWritten : Bool
  dBefore : Nat
  dAfter : Nat
  escaped : Bool
deriving DecidableEq

/-- The value of `optimized_at = self.get_optimized_at(path) or 0` on the
paths where `get_optimized_at` returns (the parse-failure path never
reaches this assignment). -/
def markerOr0 (c : Candidate) : Int :=
  match c.markerRead with
  | .present t => t
  | _ => 0

/-- Lines 175-211 of `OptimizeImage.run`: the processing of a candidate
that was not skipped.  On a compressor exception record a marker and
count the original size on both sides; on no gain
(`stat.st_size <= size_after`) record a marker and count the original
size on both sides; otherwise resolve uid/gid/mode and run the
replacement writer, recording a marker and counting the new size only
when both the writer block and the marker write succeed.  The
`set_optimized_at` calls on the compressor-failure and no-gain paths are
outside any try block, so their failure escapes the loop; the one after
a successful write sits inside the `except OSError` handler of the
writer. -/
def processBody (cfg : Config) (c : Candidate) : StepResult :=
  match c.compress with
  | .failed =>
    if c.markerSetOk then
      ⟨.compressFailed, true, origFile c, true, c.stat.size, c.stat.size, false⟩
    else
      ⟨.compressFailed, true, origFile c, false, c.stat.size, c.stat.size, true⟩
  | .ok output =>
    if c.stat.size ≤ output.length then
      if c.markerSetOk then
        ⟨.noGain, true, origFile c, true, c.stat.size, c.stat.size, false⟩
      else
        ⟨.noGain, true, origFile c, false, c.stat.size, 0, true⟩
    else
      let res := atomicReplace (origFile c) output c.procUid c.procGid c.tmpMode
        (resolveAttr cfg.owner c.stat.uid) (resolveAttr cfg.group c.stat.gid)
        (resolveAttr cfg.mode c.stat.mode) c.writerFail
      if res.2 then
        if c.markerSetOk then
          ⟨.improved, true, res.1.target, true, c.stat.size, output.length, false⟩
        else
          ⟨.markerFailed, true, res.1.target, false, c.stat.size, c.stat.size, false⟩
      else
        ⟨.writerFailed, true, res.1.target, false, c.stat.size, c.stat.size, false⟩

/-- The per-candidate body of the `for path in paths` loop of
`OptimizeImage.run` (lines 169-211), after the budget check: read the
marker (`or 0`), skip when not forced and the marker is at least the
captured mtime, and otherwise fall through to `processBody`. -/
def processCandidate (cfg : Config) (c : Candidate) : StepResult :=
  match get_optimized_at c.markerRead with
  | .raised => ⟨.readCrashed, false, origFile c, false, 0, 0, true⟩
  | .value markerOpt =>
    if cfg.force = false ∧ c.stat.mtime ≤ markerOpt.getD 0 then
      ⟨.skip, false, origFile c, false, 0, 0, false⟩
    else
      processBody cfg c

/-- `if self.max_time and time() > self.max_time`: the deadline is
checked only when set and truthy (a zero deadline is falsy in Python),
and expiry requires the clock to be strictly past the deadline. -/
def budgetExpired (maxTime : Option Int) (now : Int) : Bool :=
  match maxTime with
  | none => false
  | some d => if d = 0 then false else decide (d < now)

/-- The mutable size totals of `OptimizeImage.run`. -/
structure RunState where
  totalBefore : Nat
  totalAfter : Nat
deriving DecidableEq

/-- One iteration of the run loop: the wall-clock reading at the budget
check of that iteration, and the candidate it would process. -/
structure Iteration where
  checkTime : Int
  cand : Candidate
deriving DecidableEq

/-- The `for path in paths` loop of `OptimizeImage.run`: once per
iteration, before processing, the budget is checked and the loop breaks
on expiry; otherwise the candidate is processed to completion, the
totals are updated, and an escaped exception aborts the whole loop. -/
def runLoop (cfg : Config) (maxTime : Option Int) :
    List Iteration → RunState → RunState × List StepResult
  | [], s => (s, [])
  | it :: rest, s =>
    if budgetExpired maxTime it.checkTime then (s, [])
    else
      let r := processCandidate cfg it.cand
      let s' : RunState := ⟨s.totalBefore + r.dBefore, s.totalAfter + r.dAfter⟩
      if r.escaped then (s', [r])
      else
        let next := runLoop cfg maxTime rest s'
        (next.1, r :: next.2)

/-! ## Concrete fixtures for witnesses and counterexamples -/

/-- Fixture: configuration with force off and no overrides. -/
def cfgPlain : Config := ⟨false, none, none, none⟩

/-- Fixture: configuration with force on and no overrides. -/
def cfgForce : Config := ⟨true, none, none, none⟩

/-- Fixture: configuration with an owner override that resolved to uid 0
(as `-o root` would). -/
def cfgRootOwner : Config := ⟨true, some 0, none, none⟩

/-- Fixture: a 3-byte candidate with no marker whose compressor returns
1 byte and whose filesystem operations all succeed. -/
def candGood : Candidate :=
  ⟨[5, 5, 5], ⟨3, 100, 1000, 1000, 420⟩, .osError, .ok [7], .noFail, true, 0, 0, 384⟩

/-- Fixture: candidate whose compressor output (4 bytes) is not smaller
than the original 3 bytes. -/
def candNoGain : Candidate :=
  ⟨[5, 5, 5], ⟨3, 100, 1000, 1000, 420⟩, .osError, .ok [7, 7, 7, 7], .noFail, true, 0, 0, 384⟩

/-- Fixture: candidate whose compressor invocation fails. -/
def candCompFail : Candidate :=
  ⟨[5, 5, 5], ⟨3, 100, 1000, 1000, 420⟩, .osError, .failed, .noFail, true, 0, 0, 384⟩

/-- Fixture: improving candidate whose `os.chown` fails. -/
def candChownFail : Candidate :=
  ⟨[5, 5, 5], ⟨3, 100, 1000, 1000, 420⟩, .osError, .ok [7], .atChown, true, 0, 0, 384⟩

/-- Fixture: no-gain candidate whose `xattr.set` fails. -/
def candMarkerCrash : Candidate :=
  ⟨[5, 5, 5], ⟨3, 100, 1000, 1000, 420⟩, .osError, .ok [7, 7, 7, 7], .noFail, false, 0, 0, 384⟩

/-- Fixture: improving candidate whose `xattr.set` fails after the
replacement succeeded. -/
def candMarkerFailAfterWrite : Candidate :=
  ⟨[5, 5, 5], ⟨3, 100, 1000, 1000, 420⟩, .osError, .ok [7], .noFail, false, 0, 0, 384⟩

/-- Fixture: candidate with a stored marker (10) newer than its
modification time (5). -/
def candMarked : Candidate :=
  ⟨[3, 3], ⟨2, 5, 1, 1, 420⟩, .present 10, .ok [1], .noFail, true, 0, 0, 384⟩

/-! ## General lemmas -/

/-- When a candidate does not crash its reader, `processCandidate`
reduces to the skip test against `markerOr0` followed by
`processBody`. -/
theorem processCandidate_eq (cfg : Config) (c : Candidate)
    (hmr : c.markerRead ≠ .parseErr) :
    processCandidate cfg c =
      if cfg.force = false ∧ c.stat.mtime ≤ markerOr0 c then
        ⟨.skip, false, origFile c, false, 0, 0, false⟩
      else processBody cfg c := by
  unfold processCandidate
  cases h : c.markerRead with
  | present t => simp [get_optimized_at, markerOr0, h]
  | osError => simp [get_optimized_at, markerOr0, h]
  | parseErr => exact absurd h hmr

/-- Equation lemma: `processBody` on a failing compressor. -/
theorem processBody_failed (cfg : Config) (c : Candidate)
    (hc : c.compress = .failed) :
    processBody cfg c =
      if c.markerSetOk then
        ⟨.compressFailed, true, origFile c, true, c.stat.size, c.stat.size, false⟩
      else
        ⟨.compressFailed, true, origFile c, false, c.stat.size, c.stat.size, true⟩ := by
  unfold processBody
  rw [hc]

/-- Equation lemma: `processBody` on a successful compressor call. -/
theorem processBody_ok (cfg : Config) (c : Candidate) (output : List Nat)
    (hc : c.compress = .ok output) :
    processBody cfg c =
      if c.stat.size ≤ output.length then
        if c.markerSetOk then
          ⟨.noGain, true, origFile c, true, c.stat.size, c.stat.size, false⟩
        else
          ⟨.noGain, true, origFile c, false, c.stat.size, 0, true⟩
      else
        let res := atomicReplace (origFile c) output c.procUid c.procGid c.tmpMode
          (resolveAttr cfg.owner c.stat.uid) (resolveAttr cfg.group c.stat.gid)
          (resolveAttr cfg.mode c.stat.mode) c.writerFail
        if res.2 then
          if c.markerSetOk then
            ⟨.improved, true, res.1.target, true, c.stat.size, output.length, false⟩
          else
            ⟨.markerFailed, true, res.1.target, false, c.stat.size, c.stat.size, false⟩
        else
          ⟨.writerFailed, true, res.1.target, false, c.stat.size, c.stat.size, false⟩ := by
  unfold processBody
  rw [hc]

/-- Equation lemma: `processCandidate` on a marker whose stored bytes do
not parse. -/
theorem processCandidate_parseErr (cfg : Config) (c : Candidate)
    (hmr : c.markerRead = .parseErr) :
    processCandidate cfg c = ⟨.readCrashed, false, origFile c, false, 0, 0, true⟩ := by
  unfold processCandidate
  rw [hmr]
  rfl

/-- With force off and a marker at least as new as the captured mtime,
the candidate is skipped. -/
theorem processCandidate_skip (cfg : Config) (c : Candidate) (m : Int)
    (hf : cfg.force = false) (hm : c.markerRead = .present m)
    (hge : c.stat.mtime ≤ m) :
    processCandidate cfg c = ⟨.skip, false, origFile c, false, 0, 0, false⟩ := by
  rw [processCandidate_eq cfg c (by rw [hm]; exact fun h => MarkerRead.noConfusion h)]
  rw [if_pos ⟨hf, by rwa [markerOr0, hm]⟩]

/-- Exhaustive shape analysis of `processCandidate`: every candidate
lands in exactly one of the read-crash, skip, compressor-failure,
no-gain, improved, marker-failure or writer-failure results, with the
totals contributions the code makes there. -/
theorem processCandidate_shape (cfg : Config) (c : Candidate) :
    (c.markerRead = .parseErr ∧
      processCandidate cfg c = ⟨.readCrashed, false, origFile c, false, 0, 0, true⟩) ∨
    processCandidate cfg c = ⟨.skip, false, origFile c, false, 0, 0, false⟩ ∨
    (c.markerSetOk = true ∧ processCandidate cfg c =
      ⟨.compressFailed, true, origFile c, true, c.stat.size, c.stat.size, false⟩) ∨
    (c.markerSetOk = false ∧ processCandidate cfg c =
      ⟨.compressFailed, true, origFile c, false, c.stat.size, c.stat.size, true⟩) ∨
    (c.markerSetOk = true ∧ processCandidate cfg c =
      ⟨.noGain, true, origFile c, true, c.stat.size, c.stat.size, false⟩) ∨
    (c.markerSetOk = false ∧ processCandidate cfg c =
      ⟨.noGain, true, origFile c, false, c.stat.size, 0, true⟩) ∨
    (∃ output, c.compress = .ok output ∧ output.length < c.stat.size ∧
      ((c.markerSetOk = true ∧ processCandidate cfg c =
        ⟨.improved, true,
          ⟨output, resolveAttr cfg.owner c.stat.uid, resolveAttr cfg.group c.stat.gid,
            resolveAttr cfg.mode c.stat.mode⟩,
          true, c.stat.size, output.length, false⟩) ∨
      (c.markerSetOk = false ∧ processCandidate cfg c =
        ⟨.markerFailed, true,
          ⟨output, resolveAttr cfg.owner c.stat.uid, resolveAttr cfg.group c.stat.gid,
            resolveAttr cfg.mode c.stat.mode⟩,
          false, c.stat.size, c.stat.size, false⟩) ∨
      (c.writerFail ≠ .noFail ∧ processCandidate cfg c =
        ⟨.writerFailed, true, origFile c, false, c.stat.size, c.stat.size, false⟩))) := by
  by_cases hmr : c.markerRead = .parseErr
  · left
    exact ⟨hmr, processCandidate_parseErr cfg c hmr⟩
  · right
    rw [processCandidate_eq cfg c hmr]
    by_cases hskip : cfg.force = false ∧ c.stat.mtime ≤ markerOr0 c
    · left; rw [if_pos hskip]
    · right
      rw [if_neg hskip]
      cases hc : c.compress with
      | failed =>
        cases hset : c.markerSetOk
        · right; left
          exact ⟨rfl, by simp [processBody_failed cfg c hc, hset]⟩
        · left
          exact ⟨rfl, by simp [processBody_failed cfg c hc, hset]⟩
      | ok output =>
        by_cases hlen : c.stat.size ≤ output.length
        · cases hset : c.markerSetOk
          · right; right; right; left
            exact ⟨rfl, by simp [processBody_ok cfg c output hc, hset, hlen]⟩
          · right; right; left
            exact ⟨rfl, by simp [processBody_ok cfg c output hc, hset, hlen]⟩
        · right; right; right; right
          refine ⟨output, rfl, by omega, ?_⟩
          cases hwf : c.writerFail with
          | noFail =>
            cases hset : c.markerSetOk
            · right; left
              refine ⟨rfl, ?_⟩
              simp [processBody_ok cfg c output hc, hset, hlen, hwf,
                atomicReplace, createTemp, chownTemp, chmodTemp, commitRename]
            · left
              refine ⟨rfl, ?_⟩
              simp [processBody_ok cfg c output hc, hset, hlen, hwf,
                atomicReplace, createTemp, chownTemp, chmodTemp, commitRename]
          | atWrite =>
            right; right
            refine ⟨by simp [hwf], ?_⟩
            simp [processBody_ok cfg c output hc, hlen, hwf,
              atomicReplace, createTemp, rollback]
          | atChown =>
            right; right
            refine ⟨by simp [hwf], ?_⟩
            simp [processBody_ok cfg c output hc, hlen, hwf,
              atomicReplace, createTemp, rollback]
          | atChmod =>
            right; right
            refine ⟨by simp [hwf], ?_⟩
            simp [processBody_ok cfg c output hc, hlen, hwf,
              atomicReplace, createTemp, chownTemp, rollback]

/-- A loop iteration whose budget check passes and whose candidate does
not escape continues with the rest of the iterations. -/
theorem runLoop_cons_continue (cfg : Config) (maxTime : Option Int)
    (it : Iteration) (rest : List Iteration) (s : RunState)
    (hb : budgetExpired maxTime it.checkTime = false)
    (he : (processCandidate cfg it.cand).escaped = false) :
    runLoop cfg maxTime (it :: rest) s =
      ((runLoop cfg maxTime rest
          ⟨s.totalBefore + (processCandidate cfg it.cand).dBefore,
            s.totalAfter + (processCandidate cfg it.cand).dAfter⟩).1,
        processCandidate cfg it.cand ::
          (runLoop cfg maxTime rest
            ⟨s.totalBefore + (processCandidate cfg it.cand).dBefore,
              s.totalAfter + (processCandidate cfg it.cand).dAfter⟩).2) := by
  simp [runLoop, hb, he]

/-! ## Claims -/

/-- C1: for every candidate path, payload and metadata triple, the
replacement writer leaves the filesystem in exactly one of two states:
either the block failed, the target is byte-for-byte and
metadata-unchanged and the temporary file is gone, or the block
succeeded and the target carries exactly the payload with the specified
owner, group and mode; in particular a failure of `os.chown` or
`os.chmod` after the payload was written leaves the target unchanged and
discards the temporary file. -/
theorem c1_replacement_writer_two_state (target : FileState)
    (payload : List Nat) (tu tg tm u g m : Nat) (fp : WFail) :
    (atomicReplace target payload tu tg tm u g m fp).1.temp = none ∧
    ((atomicReplace target payload tu tg tm u g m fp).1.target = target ∧
        (atomicReplace target payload tu tg tm u g m fp).2 = false ∨
      (atomicReplace target payload tu tg tm u g m fp).1.target = ⟨payload, u, g, m⟩ ∧
        (atomicReplace target payload tu tg tm u g m fp).2 = true) ∧
    (fp = .atChown ∨ fp = .atChmod →
      (atomicReplace target payload tu tg tm u g m fp).1.target = target ∧
        (atomicReplace target payload tu tg tm u g m fp).2 = false) := by
  cases fp <;>
    simp [atomicReplace, createTemp, chownTemp, chmodTemp, commitRename, rollback]

/-- Witness for C1 at a concrete input with a `chmod` failure. -/
theorem c1_witness :
    (atomicReplace ⟨[1, 2], 1, 1, 420⟩ [9] 0 0 384 7 8 493 .atChmod).1.target =
        ⟨[1, 2], 1, 1, 420⟩ ∧
      (atomicReplace ⟨[1, 2], 1, 1, 420⟩ [9] 0 0 384 7 8 493 .atChmod).2 = false :=
  (c1_replacement_writer_two_state ⟨[1, 2], 1, 1, 420⟩ [9] 0 0 384 7 8 493
    .atChmod).2.2 (Or.inr rfl)

/-- C2: with `force` false, a candidate whose stored marker timestamp is
at least its captured modification time is classified skip: the
compressor is not invoked, the file is untouched, no marker is written,
and both size totals receive zero. -/
theorem c2_fresh_marker_skips (cfg : Config) (c : Candidate) (m : Int)
    (hf : cfg.force = false) (hm : c.markerRead = .present m)
    (hge : c.stat.mtime ≤ m) :
    processCandidate cfg c = ⟨.skip, false, origFile c, false, 0, 0, false⟩ :=
  processCandidate_skip cfg c m hf hm hge

/-- Witness for C2 on a concrete candidate with marker 10 and mtime 5. -/
theorem c2_witness :
    processCandidate ⟨false, none, none, none⟩
        ⟨[3, 3], ⟨2, 5, 1, 1, 420⟩, .present 10, .ok [1], .noFail, true, 0, 0, 384⟩ =
      ⟨.skip, false,
        origFile ⟨[3, 3], ⟨2, 5, 1, 1, 420⟩, .present 10, .ok [1], .noFail, true, 0, 0, 384⟩,
        false, 0, 0, false⟩ :=
  c2_fresh_marker_skips _ _ 10 rfl rfl (by decide)

/-- C3: a candidate file is ever rewritten only when the compressor
output is strictly smaller than the original size; when the output is at
least as large the candidate is classified no-gain, the file is left
untouched, a marker is recorded, and the original size is counted as
both before and after. -/
theorem c3_rewrite_requires_strict_gain :
    (∀ cfg c, (processCandidate cfg c).file ≠ origFile c →
      ∃ output, c.compress = .ok output ∧ output.length < c.stat.size) ∧
    (∀ cfg c output, c.markerRead ≠ .parseErr →
      ¬(cfg.force = false ∧ c.stat.mtime ≤ markerOr0 c) →
      c.compress = .ok output → c.stat.size ≤ output.length →
      c.markerSetOk = true →
      processCandidate cfg c =
        ⟨.noGain, true, origFile c, true, c.stat.size, c.stat.size, false⟩) := by
  constructor
  · intro cfg c hne
    rcases processCandidate_shape cfg c with ⟨_, h⟩ | h | ⟨_, h⟩ | ⟨_, h⟩ | ⟨_, h⟩ |
        ⟨_, h⟩ | ⟨output, hc, hlt, ⟨_, h⟩ | ⟨_, h⟩ | ⟨_, h⟩⟩
    · rw [h] at hne; simp at hne
    · rw [h] at hne; simp at hne
    · rw [h] at hne; simp at hne
    · rw [h] at hne; simp at hne
    · rw [h] at hne; simp at hne
    · rw [h] at hne; simp at hne
    · exact ⟨output, hc, hlt⟩
    · exact ⟨output, hc, hlt⟩
    · exact ⟨output, hc, hlt⟩
  · intro cfg c output hmr hns hc hge hset
    rw [processCandidate_eq cfg c hmr, if_neg hns, processBody_ok cfg c output hc,
      if_pos hge, if_pos hset]

/-- Witness for C3 on a candidate whose compressor output of 4 bytes
does not beat the original 3 bytes. -/
theorem c3_witness :
    processCandidate cfgForce candNoGain =
      ⟨.noGain, true, origFile candNoGain, true, candNoGain.stat.size,
        candNoGain.stat.size, false⟩ :=
  c3_rewrite_requires_strict_gain.2 cfgForce candNoGain [7, 7, 7, 7] (by decide)
    (by decide) rfl (by decide) rfl

/-- C4: the claim fails on the code for an override value of 0.  With an
owner override that resolved to uid 0 (as `-o root` would), a rewritten
file keeps the uid of the pre-rewrite snapshot, because the code tests
the override by Python truthiness (`self.owner if self.owner else
stat.st_uid`) rather than by presence; the same holds for a group
override of gid 0 and a mode override of 0, which the argument parser
explicitly accepts. -/
theorem c4_zero_override_ignored :
    (processCandidate cfgRootOwner candGood).outcome = .improved ∧
      (processCandidate cfgRootOwner candGood).file = ⟨[7], 1000, 1000, 420⟩ ∧
      resolveAttr (some 0) 1000 = 1000 ∧ resolveAttr (some 0) 420 = 420 :=
  ⟨rfl, rfl, rfl, rfl⟩

/-- C5: a candidate whose compressor invocation fails is classified
compress-failed, a marker is recorded (the write of that marker itself
succeeding), the file is untouched, the original size is added to both
totals, and the loop continues with the next candidate. -/
theorem c5_compress_failure_policy (cfg : Config) (c : Candidate)
    (hmr : c.markerRead ≠ .parseErr)
    (hns : ¬(cfg.force = false ∧ c.stat.mtime ≤ markerOr0 c))
    (hc : c.compress = .failed) (hset : c.markerSetOk = true) :
    processCandidate cfg c =
      ⟨.compressFailed, true, origFile c, true, c.stat.size, c.stat.size, false⟩ ∧
    ∀ (maxTime : Option Int) (t : Int) (rest : List Iteration) (s : RunState),
      budgetExpired maxTime t = false →
      runLoop cfg maxTime (⟨t, c⟩ :: rest) s =
        ((runLoop cfg maxTime rest
            ⟨s.totalBefore + c.stat.size, s.totalAfter + c.stat.size⟩).1,
          ⟨.compressFailed, true, origFile c, true, c.stat.size, c.stat.size, false⟩ ::
            (runLoop cfg maxTime rest
              ⟨s.totalBefore + c.stat.size, s.totalAfter + c.stat.size⟩).2) := by
  have hstep : processCandidate cfg c =
      ⟨.compressFailed, true, origFile c, true, c.stat.size, c.stat.size, false⟩ := by
    rw [processCandidate_eq cfg c hmr, if_neg hns, processBody_failed cfg c hc,
      if_pos hset]
  refine ⟨hstep, ?_⟩
  intro maxTime t rest s hb
  simp [runLoop, hb, hstep]

/-- Witness for C5 on a concrete candidate with a failing compressor. -/
theorem c5_witness :
    processCandidate cfgForce candCompFail =
      ⟨.compressFailed, true, origFile candCompFail, true, candCompFail.stat.size,
        candCompFail.stat.size, false⟩ :=
  (c5_compress_failure_policy cfgForce candCompFail (by decide) (by decide) rfl rfl).1

/-- C6: a candidate on which the replacement writer fails is classified
writer-failed, no marker is recorded, the file is untouched, the
original size is counted on both sides, no exception escapes the
candidate, and the loop continues with the next candidate. -/
theorem c6_writer_failure_policy (cfg : Config) (c : Candidate) (output : List Nat)
    (hmr : c.markerRead ≠ .parseErr)
    (hns : ¬(cfg.force = false ∧ c.stat.mtime ≤ markerOr0 c))
    (hc : c.compress = .ok output) (hlt : output.length < c.stat.size)
    (hw : c.writerFail ≠ .noFail) :
    processCandidate cfg c =
      ⟨.writerFailed, true, origFile c, false, c.stat.size, c.stat.size, false⟩ ∧
    ∀ (maxTime : Option Int) (t : Int) (rest : List Iteration) (s : RunState),
      budgetExpired maxTime t = false →
      runLoop cfg maxTime (⟨t, c⟩ :: rest) s =
        ((runLoop cfg maxTime rest
            ⟨s.totalBefore + c.stat.size, s.totalAfter + c.stat.size⟩).1,
          ⟨.writerFailed, true, origFile c, false, c.stat.size, c.stat.size, false⟩ ::
            (runLoop cfg maxTime rest
              ⟨s.totalBefore + c.stat.size, s.totalAfter + c.stat.size⟩).2) := by
  have hstep : processCandidate cfg c =
      ⟨.writerFailed, true, origFile c, false, c.stat.size, c.stat.size, false⟩ := by
    rw [processCandidate_eq cfg c hmr, if_neg hns, processBody_ok cfg c output hc,
      if_neg (by omega : ¬c.stat.size ≤ output.length)]
    cases hwf : c.writerFail with
    | noFail => exact absurd hwf hw
    | atWrite => simp [atomicReplace, createTemp, rollback]
    | atChown => simp [atomicReplace, createTemp, rollback]
    | atChmod => simp [atomicReplace, createTemp, chownTemp, rollback]
  refine ⟨hstep, ?_⟩
  intro maxTime t rest s hb
  simp [runLoop, hb, hstep]

/-- Witness for C6 on a concrete improving candidate whose chown
fails. -/
theorem c6_witness :
    processCandidate cfgForce candChownFail =
      ⟨.writerFailed, true, origFile candChownFail, false, candChownFail.stat.size,
        candChownFail.stat.size, false⟩ :=
  (c6_writer_failure_policy cfgForce candChownFail [7] (by decide) (by decide) rfl
    (by decide) (by decide)).1


/-- C7: idempotence.  When every candidate of a run (untouched since the
previous run) carries a marker at least as new as its captured
modification time and force is off, the run performs zero size-improving
rewrites: every processed candidate is classified skip with no
compressor invocation, no marker update and zero totals contributions,
and the run totals come back unchanged. -/
theorem c7_second_run_skips_everything (cfg : Config) (maxTime : Option Int)
    (its : List Iteration) (s : RunState) (hf : cfg.force = false)
    (hm : ∀ it ∈ its, ∃ m, it.cand.markerRead = .present m ∧
      it.cand.stat.mtime ≤ m) :
    (runLoop cfg maxTime its s).1 = s ∧
      ∀ r ∈ (runLoop cfg maxTime its s).2,
        r.outcome = .skip ∧ r.invoked = false ∧ r.markerWritten = false ∧
          r.dBefore = 0 ∧ r.dAfter = 0 := by
  revert s hm
  induction its with
  | nil =>
    intro s _
    refine ⟨rfl, ?_⟩
    intro r hr
    simp [runLoop] at hr
  | cons it rest ih =>
    intro s hm
    obtain ⟨m, hmr, hge⟩ := hm it (List.mem_cons_self it rest)
    have hstep := processCandidate_skip cfg it.cand m hf hmr hge
    by_cases hb : budgetExpired maxTime it.checkTime = true
    · refine ⟨by simp [runLoop, hb], ?_⟩
      intro r hr
      simp [runLoop, hb] at hr
    · have hb' : budgetExpired maxTime it.checkTime = false := by
        simpa using hb
      have hcons := runLoop_cons_continue cfg maxTime it rest s hb' (by rw [hstep])
      rw [hstep] at hcons
      have hrest := ih s (fun x hx => hm x (List.mem_cons_of_mem it hx))
      rw [hcons]
      refine ⟨hrest.1, ?_⟩
      intro r hr
      rcases List.mem_cons.mp hr with h | h
      · subst h
        exact ⟨rfl, rfl, rfl, rfl, rfl⟩
      · exact hrest.2 r h

/-- Witness for C7 on a one-candidate run with marker 10 and mtime 5. -/
theorem c7_witness :
    (runLoop cfgPlain none [⟨0, candMarked⟩] ⟨7, 9⟩).1 = ⟨7, 9⟩ :=
  (c7_second_run_skips_everything cfgPlain none [⟨0, candMarked⟩] ⟨7, 9⟩ rfl
    (fun it hit => by
      rw [List.mem_singleton.mp hit]
      exact ⟨10, rfl, by decide⟩)).1

/-- C8 counterexample: the claim that a marker write failure never
aborts processing is false.  For a no-gain candidate whose `xattr.set`
raises, the exception escapes the candidate and the run loop stops, so
a following candidate is never processed. -/
theorem c8_counterexample :
    (processCandidate cfgForce candMarkerCrash).escaped = true ∧
      (runLoop cfgForce none [⟨0, candMarkerCrash⟩, ⟨0, candGood⟩] ⟨0, 0⟩).2 =
        [⟨.noGain, true, origFile candMarkerCrash, false, 3, 0, true⟩] :=
  ⟨rfl, rfl⟩

/-- C8 amended: a marker read that fails with an OS error returns
absent; an exception can escape a candidate only when the marker store
misbehaves (an unparsable stored marker, or a failing marker write); and
a marker write failure after a successful rewrite is caught by the
writer's exception handler and does not abort. -/
theorem c8_marker_store_failure_policy :
    get_optimized_at .osError = .value none ∧
    (∀ cfg c, (processCandidate cfg c).escaped = true →
      c.markerRead = .parseErr ∨ c.markerSetOk = false) ∧
    (∀ cfg c output, c.markerRead ≠ .parseErr →
      ¬(cfg.force = false ∧ c.stat.mtime ≤ markerOr0 c) →
      c.compress = .ok output → output.length < c.stat.size →
      c.writerFail = .noFail → c.markerSetOk = false →
      processCandidate cfg c =
        ⟨.markerFailed, true,
          ⟨output, resolveAttr cfg.owner c.stat.uid, resolveAttr cfg.group c.stat.gid,
            resolveAttr cfg.mode c.stat.mode⟩,
          false, c.stat.size, c.stat.size, false⟩) := by
  refine ⟨rfl, ?_, ?_⟩
  · intro cfg c hesc
    rcases processCandidate_shape cfg c with ⟨hp, h⟩ | h | ⟨hs, h⟩ | ⟨hs, h⟩ | ⟨hs, h⟩ |
        ⟨hs, h⟩ | ⟨output, hc, hlt, ⟨hs, h⟩ | ⟨hs, h⟩ | ⟨hw, h⟩⟩
    · exact Or.inl hp
    · rw [h] at hesc; simp at hesc
    · rw [h] at hesc; simp at hesc
    · exact Or.inr hs
    · rw [h] at hesc; simp at hesc
    · exact Or.inr hs
    · rw [h] at hesc; simp at hesc
    · rw [h] at hesc; simp at hesc
    · rw [h] at hesc; simp at hesc
  · intro cfg c output hmr hns hc hlt hw hset
    rw [processCandidate_eq cfg c hmr, if_neg hns, processBody_ok cfg c output hc,
      if_neg (by omega : ¬c.stat.size ≤ output.length), hw]
    simp [atomicReplace, createTemp, chownTemp, chmodTemp, commitRename, hset]

/-- Witness for the amended C8: a concrete rewrite whose marker write
fails is caught and classified marker-failed, without escaping. -/
theorem c8_witness :
    processCandidate cfgForce candMarkerFailAfterWrite =
      ⟨.markerFailed, true, ⟨[7], 1000, 1000, 420⟩, false, 3, 3, false⟩ :=
  c8_marker_store_failure_policy.2.2 cfgForce candMarkerFailAfterWrite [7]
    (by decide) (by decide) rfl (by decide) rfl rfl

/-- C9: the wall-clock budget is checked once per loop iteration before
a new candidate starts; if the clock is already strictly past the
(nonzero) deadline at every iteration, the loop stops at the first
check: no candidate is processed, rewritten or marked and the totals
are unchanged. -/
theorem c9_expired_budget_stops_run (cfg : Config) (d : Int)
    (its : List Iteration) (s : RunState) (hd : d ≠ 0)
    (ht : ∀ it ∈ its, d < it.checkTime) :
    runLoop cfg (some d) its s = (s, []) := by
  cases its with
  | nil => rfl
  | cons it rest =>
    have hb : budgetExpired (some d) it.checkTime = true := by
      simp only [budgetExpired]
      rw [if_neg hd, decide_eq_true_eq]
      exact ht it (List.mem_cons_self it rest)
    simp [runLoop, hb]

/-- Witness for C9: deadline 5, one candidate arriving at time 6. -/
theorem c9_witness :
    runLoop cfgForce (some 5) [⟨6, candGood⟩] ⟨0, 0⟩ = (⟨0, 0⟩, []) :=
  c9_expired_budget_stops_run cfgForce 5 [⟨6, candGood⟩] ⟨0, 0⟩ (by decide)
    (by decide)

/-- C10: the after total never exceeds the before total.  Every
candidate contributes at most its original size to the after total and,
when processed past the skip test, exactly its original size to the
before total; the contribution is strictly smaller exactly on a
successful rewrite, equal on compressor failure, no-gain, writer
failure and post-rewrite marker failure; and the loop preserves
`totalAfter ≤ totalBefore` from any starting totals. -/
theorem c10_totals_never_grow :
    (∀ cfg c, (processCandidate cfg c).dAfter ≤ (processCandidate cfg c).dBefore) ∧
    (∀ cfg c, (processCandidate cfg c).outcome ≠ .skip →
      (processCandidate cfg c).outcome ≠ .readCrashed →
      (processCandidate cfg c).dBefore = c.stat.size) ∧
    (∀ cfg c, (processCandidate cfg c).outcome = .improved →
      (processCandidate cfg c).dAfter < (processCandidate cfg c).dBefore) ∧
    (∀ cfg c, (processCandidate cfg c).escaped = false →
      ((processCandidate cfg c).outcome = .compressFailed ∨
        (processCandidate cfg c).outcome = .noGain ∨
        (processCandidate cfg c).outcome = .writerFailed ∨
        (processCandidate cfg c).outcome = .markerFailed) →
      (processCandidate cfg c).dAfter = (processCandidate cfg c).dBefore) ∧
    (∀ cfg maxTime its (s : RunState), s.totalAfter ≤ s.totalBefore →
      (runLoop cfg maxTime its s).1.totalAfter ≤
        (runLoop cfg maxTime its s).1.totalBefore) := by
  have hle : ∀ cfg c,
      (processCandidate cfg c).dAfter ≤ (processCandidate cfg c).dBefore := by
    intro cfg c
    rcases processCandidate_shape cfg c with ⟨_, h⟩ | h | ⟨_, h⟩ | ⟨_, h⟩ | ⟨_, h⟩ |
        ⟨_, h⟩ | ⟨output, hc, hlt, ⟨_, h⟩ | ⟨_, h⟩ | ⟨_, h⟩⟩ <;> rw [h] <;> simp
    omega
  refine ⟨hle, ?_, ?_, ?_, ?_⟩
  · intro cfg c h1 h2
    rcases processCandidate_shape cfg c with ⟨_, h⟩ | h | ⟨_, h⟩ | ⟨_, h⟩ | ⟨_, h⟩ |
        ⟨_, h⟩ | ⟨output, hc, hlt, ⟨_, h⟩ | ⟨_, h⟩ | ⟨_, h⟩⟩ <;>
      rw [h] at h1 h2 ⊢ <;> simp_all
  · intro cfg c himp
    rcases processCandidate_shape cfg c with ⟨_, h⟩ | h | ⟨_, h⟩ | ⟨_, h⟩ | ⟨_, h⟩ |
        ⟨_, h⟩ | ⟨output, hc, hlt, ⟨_, h⟩ | ⟨_, h⟩ | ⟨_, h⟩⟩ <;>
      rw [h] at himp ⊢ <;> simp_all
  · intro cfg c hesc hout
    rcases processCandidate_shape cfg c with ⟨_, h⟩ | h | ⟨_, h⟩ | ⟨_, h⟩ | ⟨_, h⟩ |
        ⟨_, h⟩ | ⟨output, hc, hlt, ⟨_, h⟩ | ⟨_, h⟩ | ⟨_, h⟩⟩ <;>
      rw [h] at hesc hout ⊢ <;> simp_all
  · intro cfg maxTime its
    induction its with
    | nil => intro s hs; simpa [runLoop] using hs
    | cons it rest ih =>
      intro s hs
      by_cases hb : budgetExpired maxTime it.checkTime = true
      · simpa [runLoop, hb] using hs
      · have hb' : budgetExpired maxTime it.checkTime = false := by simpa using hb
        have hs' : s.totalAfter + (processCandidate cfg it.cand).dAfter ≤
            s.totalBefore + (processCandidate cfg it.cand).dBefore :=
          Nat.add_le_add hs (hle cfg it.cand)
        by_cases he : (processCandidate cfg it.cand).escaped = true
        · simpa [runLoop, hb', he] using hs'
        · have he' : (processCandidate cfg it.cand).escaped = false := by simpa using he
          have hres := ih ⟨s.totalBefore + (processCandidate cfg it.cand).dBefore,
            s.totalAfter + (processCandidate cfg it.cand).dAfter⟩ hs'
          simpa [runLoop, hb', he'] using hres

/-- Witness for C10: one improving candidate, totals 3 before and 1
after. -/
theorem c10_witness :
    (runLoop cfgPlain none [⟨0, candGood⟩] ⟨0, 0⟩).1.totalAfter ≤
      (runLoop cfgPlain none [⟨0, candGood⟩] ⟨0, 0⟩).1.totalBefore ∧
      (processCandidate cfgPlain candGood).dAfter <
        (processCandidate cfgPlain candGood).dBefore :=
  ⟨c10_totals_never_grow.2.2.2.2 cfgPlain none [⟨0, candGood⟩] ⟨0, 0⟩ (by decide),
    c10_totals_never_grow.2.2.1 cfgPlain candGood (by decide)⟩
